import Mathlib

/- Shallow embedding of the axis-frame remapping layer of the spim-core
repository (file `spim_core/devices/tiger_components.py`, class `Pose` and its
subclasses `SamplePose` / `CameraPose`, plus the `lock_external_user_input`
guard from `spim_core/spim_base.py`).

Modelling conventions:
* Python `dict` objects are association lists `List (String × _)` with
  insertion-order semantics; `pyInsert` mirrors `d[k] = v` (update in place
  if the key exists, else append).
* Axis values (positions, deltas, step sizes) are modelled as `ℤ`; the code
  only negates and rescales them, which is exact.
* Python `str.lower()` / `str.upper()` are modelled for ASCII axis
  identifiers via explicit 26-entry case tables (`lowerPairs`/`upperPairs`);
  axis names in this code base are ASCII letters optionally prefixed by `-`.
* `some_dict[k]` (which raises `KeyError`) is modelled with `Except`;
  `some_dict.get(k, dflt)` with `(List.lookup k _).getD dflt`.
* The Tiger controller is an external collaborator; the slices of its state
  that the claims are about (travel limits, ring-buffer queues, joystick
  binding) are modelled explicitly, and command-issuing operations return the
  trace of commands sent to it. -/

/-- ASCII uppercase-to-lowercase table, mirroring Python `str.lower` on the
axis identifiers used by this code base. -/
def lowerPairs : List (Char × Char) :=
  [('A', 'a'), ('B', 'b'), ('C', 'c'), ('D', 'd'), ('E', 'e'), ('F', 'f'),
   ('G', 'g'), ('H', 'h'), ('I', 'i'), ('J', 'j'), ('K', 'k'), ('L', 'l'),
   ('M', 'm'), ('N', 'n'), ('O', 'o'), ('P', 'p'), ('Q', 'q'), ('R', 'r'),
   ('S', 's'), ('T', 't'), ('U', 'u'), ('V', 'v'), ('W', 'w'), ('X', 'x'),
   ('Y', 'y'), ('Z', 'z')]

/-- ASCII lowercase-to-uppercase table, mirroring Python `str.upper`. -/
def upperPairs : List (Char × Char) :=
  lowerPairs.map (fun p => (p.2, p.1))

/-- Lowercase one character (ASCII). -/
def charLower (c : Char) : Char :=
  ((lowerPairs.find? (fun p => p.1 == c)).map Prod.snd).getD c

/-- Uppercase one character (ASCII). -/
def charUpper (c : Char) : Char :=
  ((upperPairs.find? (fun p => p.1 == c)).map Prod.snd).getD c

/-- Python `s.lower()`. -/
def strLower (s : String) : String :=
  String.mk (s.data.map charLower)

/-- Python `s.upper()`. -/
def strUpper (s : String) : String :=
  String.mk (s.data.map charUpper)

/-- Test used by `startswith` and `lstrip` below. -/
def isDashChar (c : Char) : Bool := c == '-'

/-- Python `s.startswith('-')`. -/
def startsDash (s : String) : Bool :=
  match s.data with
  | [] => false
  | c :: _ => isDashChar c

/-- Python `s.lstrip('-')`: remove every leading dash. -/
def lstripDash (s : String) : String :=
  String.mk (s.data.dropWhile isDashChar)

/-- Python dict assignment `d[k] = v`: replace in place if `k` is present,
otherwise append at the end. -/
def pyInsert {α : Type} (d : List (String × α)) (k : String) (v : α) :
    List (String × α) :=
  match d with
  | [] => [(k, v)]
  | q :: rest => if q.1 = k then (k, v) :: rest else q :: pyInsert rest k v

/-- Build a Python dict from a list of key/value pairs (later pairs with the
same key silently overwrite earlier ones), as in `dict(zip(values, keys))`. -/
def pyDictOf {α : Type} (l : List (String × α)) : List (String × α) :=
  l.foldl (fun acc p => pyInsert acc p.1 p.2) []

/-- Sign string computed by `Pose._sanitize_axis_map` for one entry:
`"-" if axis.startswith("-") ^ t_axis.startswith("-") else ""`. -/
def signStr (axis t_axis : String) : String :=
  if (startsDash axis).xor (startsDash t_axis) then "-" else ""

/-- The sanitized key/value pair produced by one loop iteration of
`Pose._sanitize_axis_map`: lowercase both names, move the net sign onto the
value, and strip leading dashes from the key. -/
def sanPair (p : String × String) : String × String :=
  (lstripDash (strLower p.1),
   signStr (strLower p.1) (strLower p.2) ++ lstripDash (strLower p.2))

/-- `Pose._sanitize_axis_map`: fold the per-entry sanitization into a fresh
dict (duplicate sanitized keys overwrite silently, as in Python). -/
def sanitize_axis_map (axis_map : List (String × String)) :
    List (String × String) :=
  axis_map.foldl (fun acc p => pyInsert acc (sanPair p).1 (sanPair p).2) []

/-- The key/value pair produced by one loop iteration of `Pose._remap`:
lowercase the axis, look it up in the mapping (defaulting to itself), strip
the sign off the new name and fold it into the value. -/
def remapPair (mapping : List (String × String)) (p : String × ℤ) :
    String × ℤ :=
  (lstripDash ((List.lookup (strLower p.1) mapping).getD (strLower p.1)),
   (if startsDash ((List.lookup (strLower p.1) mapping).getD (strLower p.1))
    then (-1 : ℤ) else 1) * p.2)

/-- `Pose._remap`: remap every entry of `axes` through `mapping` into a fresh
dict. -/
def remap (axes : List (String × ℤ)) (mapping : List (String × String)) :
    List (String × ℤ) :=
  axes.foldl (fun acc p => pyInsert acc (remapPair mapping p).1 (remapPair mapping p).2) []

/-- The part of a `Pose` instance state that the remapping layer reads:
the two sanitized direction maps built in `Pose.__init__`. -/
structure Pose where
  sample_to_tiger_axis_map : List (String × String)
  tiger_to_sample_axis_map : List (String × String)
deriving DecidableEq

/-- `Pose.__init__` with a non-`None` `axis_map`: sanitize the map for the
forward direction, and sanitize `dict(zip(axis_map.values(), axis_map.keys()))`
for the backward direction. -/
def mkPose (axis_map : List (String × String)) : Pose :=
  { sample_to_tiger_axis_map := sanitize_axis_map axis_map,
    tiger_to_sample_axis_map :=
      sanitize_axis_map (pyDictOf (axis_map.map (fun p => (p.2, p.1)))) }

/-- `Pose.__init__` with `axis_map = None`: both direction maps stay empty. -/
def mkPoseNoMap : Pose :=
  { sample_to_tiger_axis_map := [], tiger_to_sample_axis_map := [] }

/-- `Pose._sample_to_tiger`. -/
def sample_to_tiger (P : Pose) (axes : List (String × ℤ)) :
    List (String × ℤ) :=
  remap axes P.sample_to_tiger_axis_map

/-- `Pose._tiger_to_sample`. -/
def tiger_to_sample (P : Pose) (axes : List (String × ℤ)) :
    List (String × ℤ) :=
  remap axes P.tiger_to_sample_axis_map

/-- `Pose._sample_to_tiger_axis_list`: convert axis names through the forward
map by remapping a zero-valued dict and keeping the keys. -/
def sample_to_tiger_axis_list (P : Pose) (axes : List String) : List String :=
  (sample_to_tiger P (axes.map (fun x => (x, (0 : ℤ))))).map Prod.fst

/-- Python `sorted([a, b])` for two values. -/
def sorted2 (a b : ℤ) : List ℤ :=
  if a ≤ b then [a, b] else [b, a]

/-- The travel-limit state of the Tiger controller: per machine axis, the
values answered by `get_lower_travel_limit` / `get_upper_travel_limit`
(each answered as a single-entry dict keyed by the queried axis). -/
structure TigerLimits where
  lower : String → ℤ
  upper : String → ℤ

/-- The loop body of `Pose.get_travel_limits` for one requested axis:
resolve the machine axis (`tiger_ax`), query both machine-frame limits,
remap each through the backward map (`_tiger_to_sample`, applied to the
single-entry dict the controller answers with), and sort the pair. -/
def travel_pair (P : Pose) (tb : TigerLimits) (ax : String) : List ℤ :=
  sorted2
    (((tiger_to_sample P
        [((sample_to_tiger_axis_list P [ax]).headD "",
          tb.lower ((sample_to_tiger_axis_list P [ax]).headD ""))]).map
        Prod.snd).headD 0)
    (((tiger_to_sample P
        [((sample_to_tiger_axis_list P [ax]).headD "",
          tb.upper ((sample_to_tiger_axis_list P [ax]).headD ""))]).map
        Prod.snd).headD 0)

/-- `Pose.get_travel_limits`: store the sorted remapped limit pair of every
requested axis in a fresh dict. -/
def get_travel_limits (P : Pose) (tb : TigerLimits) (axes : List String) :
    List (String × List ℤ) :=
  axes.foldl (fun acc ax => pyInsert acc ax (travel_pair P tb ax)) []

/-- Commands that `Pose.setup_finite_tile_scan` sends to the Tiger
controller, with the arguments it passes. -/
inductive TigerCmd where
  | setupScan : String → String → TigerCmd
  | scanr : ℤ → ℤ → ℤ → ℤ → TigerCmd
  | scanv : ℤ → ℤ → ℤ → TigerCmd
deriving DecidableEq

/-- `Pose.setup_finite_tile_scan`: resolve fast/slow axes through the raw
forward dict lookups (`KeyError` on an unmapped axis), remap the three scalar
positions, and issue `setup_scan`, `scanr`, `scanv` with the given counts and
interval.  The returned value is the trace of commands sent. -/
def setup_finite_tile_scan (P : Pose) (fast_axis slow_axis : String)
    (fast_axis_start_position slow_axis_start_position
     slow_axis_stop_position : ℤ)
    (tile_count : ℤ) (tile_interval_um : ℤ) (line_count : ℤ) :
    Except String (List TigerCmd) :=
  match List.lookup (strLower fast_axis) P.sample_to_tiger_axis_map,
        List.lookup (strLower slow_axis) P.sample_to_tiger_axis_map with
  | some fa, some sa =>
    Except.ok
      [TigerCmd.setupScan (lstripDash fa) (lstripDash sa),
       TigerCmd.scanr
         (((sample_to_tiger P [(fast_axis, fast_axis_start_position)]).map
             Prod.snd).headD 0)
         tile_interval_um tile_count 100,
       TigerCmd.scanv
         (((sample_to_tiger P [(slow_axis, slow_axis_start_position)]).map
             Prod.snd).headD 0)
         (((sample_to_tiger P [(slow_axis, slow_axis_stop_position)]).map
             Prod.snd).headD 0)
         line_count]
  | _, _ => Except.error "KeyError"

/-- `STEPS_PER_UM` from the tigerasi package. -/
def STEPS_PER_UM : ℤ := 10

/-- The ring-buffer state of the Tiger controller: the queue of buffered
moves per machine axis.  The hardware treats axis letters
case-insensitively, so every access compares uppercased keys. -/
structure RingState where
  queue : String → List ℤ

/-- `tigerbox.reset_ring_buffer(axis)`: clear the buffered-move queue of the
given axis. -/
def reset_ring_buffer (s : RingState) (axis : String) : RingState :=
  { queue := fun a => if strUpper a = strUpper axis then [] else s.queue a }

/-- `tigerbox.queue_buffered_move(**moves)`: append each commanded move to
the queue of its axis. -/
def queue_buffered_move (s : RingState) (moves : List (String × ℤ)) :
    RingState :=
  moves.foldl
    (fun st p =>
      { queue := fun a =>
          if strUpper a = strUpper p.1 then st.queue a ++ [p.2]
          else st.queue a })
    s

/-- `Pose._setup_relative_ring_buffer_move`: convert the step size to steps,
remap it to the machine frame, reset the ring buffer on the uppercased
machine axis, and queue the signed move.  (The TTL-mode configuration calls
do not touch the queue and are not part of the modelled state.) -/
def setup_relative_ring_buffer_move (P : Pose) (s : RingState) (axis : String)
    (step_size_mm : ℤ) : RingState :=
  let step_size_steps := step_size_mm * 1000 * STEPS_PER_UM
  let tiger_frame_move := sample_to_tiger P [(strLower axis, step_size_steps)]
  let hw_scan_axis := (tiger_frame_move.map Prod.fst).headD ""
  queue_buffered_move (reset_ring_buffer s (strUpper hw_scan_axis))
    tiger_frame_move

/-- The joystick-related state of one `Pose` wrapper and its controller:
whether joystick inputs are enabled, the current input-to-axis binding, and
the binding snapshot held in the wrapper attribute
`self.tiger_joystick_mapping`. -/
structure JoySys where
  joyEnabled : Bool
  joyBinding : List (String × String)
  tiger_joystick_mapping : List (String × String)
deriving DecidableEq

/-- `tigerbox.get_joystick_axis_mapping()`. -/
def get_joystick_axis_mapping (st : JoySys) : List (String × String) :=
  st.joyBinding

/-- `tigerbox.disable_joystick_inputs()`. -/
def disable_joystick_inputs (st : JoySys) : JoySys :=
  { st with joyEnabled := false }

/-- `tigerbox.enable_joystick_inputs()`: re-enabling restores a hardware
default binding (`deflt`), not necessarily the one in use before. -/
def enable_joystick_inputs (deflt : List (String × String)) (st : JoySys) :
    JoySys :=
  { st with joyEnabled := true, joyBinding := deflt }

/-- `tigerbox.bind_axis_to_joystick_input(**m)`. -/
def bind_axis_to_joystick_input (m : List (String × String)) (st : JoySys) :
    JoySys :=
  { st with joyBinding := m }

/-- `Pose.lock_external_user_input`: snapshot the current joystick binding
into `self.tiger_joystick_mapping`, then disable joystick inputs. -/
def lock_external_user_input (st : JoySys) : JoySys :=
  disable_joystick_inputs
    { st with tiger_joystick_mapping := get_joystick_axis_mapping st }

/-- `Pose.unlock_external_user_input`: re-enable joystick inputs (which
resets the binding to the hardware default), then re-apply the snapshot
taken at lock time. -/
def unlock_external_user_input (deflt : List (String × String))
    (st : JoySys) : JoySys :=
  bind_axis_to_joystick_input
    (enable_joystick_inputs deflt st).tiger_joystick_mapping
    (enable_joystick_inputs deflt st)

/-- The `lock_external_user_input` decorator from `spim_core/spim_base.py`:
lock, run the wrapped operation (which may end in an error), and unlock in a
`finally` block on every exit path.  The body returns its final state
together with `none` (normal return) or `some e` (raised exception `e`). -/
def locked_guard (deflt : List (String × String))
    (body : JoySys → JoySys × Option String) (st : JoySys) :
    JoySys × Option String :=
  let st1 := lock_external_user_input st
  let r := body st1
  (unlock_external_user_input deflt r.1, r.2)

/-- The axis filter shared by `SamplePose.move_absolute` and
`SamplePose.move_relative`: keep only those of the `x`, `y`, `z` keyword
arguments whose (lowercased) name is a key of the sample-to-tiger axis map
and whose value is not `None`. -/
def samplePose_select_axes (P : Pose) (x y z : Option ℤ) :
    List (String × ℤ) :=
  (List.zip ["x", "y", "z"] [x, y, z]).foldl
    (fun acc p =>
      match p.2 with
      | some v =>
        if (List.lookup (strLower p.1) P.sample_to_tiger_axis_map).isSome then
          pyInsert acc p.1 v
        else acc
      | none => acc)
    []

/-- `SamplePose.move_absolute`: the machine-frame axis dict passed to
`tigerbox.move_absolute` (empty dict = no axis is commanded). -/
def samplePose_move_absolute (P : Pose) (x y z : Option ℤ) :
    List (String × ℤ) :=
  sample_to_tiger P (samplePose_select_axes P x y z)

/-- `SamplePose.move_relative`: the machine-frame axis dict passed to
`tigerbox.move_relative`. -/
def samplePose_move_relative (P : Pose) (x y z : Option ℤ) :
    List (String × ℤ) :=
  sample_to_tiger P (samplePose_select_axes P x y z)

/-- Sanitized key of a raw axis-map entry (lowercased, dashes stripped). -/
def sanKey (p : String × String) : String := lstripDash (strLower p.1)

/-- Sanitized machine-axis name of a raw axis-map entry. -/
def sanTarget (p : String × String) : String := lstripDash (strLower p.2)

theorem charLower_charLower (c : Char) : charLower (charLower c) = charLower c := by
  unfold charLower
  cases h : lowerPairs.find? (fun p => p.1 == c) with
  | none => simp [h]
  | some p =>
    have hp : p ∈ lowerPairs := List.mem_of_find?_eq_some h
    have hall : ∀ q ∈ lowerPairs,
        lowerPairs.find? (fun r => r.1 == q.2) = none := by decide
    simp [h, hall p hp]

theorem charUpper_charUpper (c : Char) : charUpper (charUpper c) = charUpper c := by
  unfold charUpper
  cases h : upperPairs.find? (fun p => p.1 == c) with
  | none => simp [h]
  | some p =>
    have hp : p ∈ upperPairs := List.mem_of_find?_eq_some h
    have hall : ∀ q ∈ upperPairs,
        upperPairs.find? (fun r => r.1 == q.2) = none := by decide
    simp [h, hall p hp]

theorem strUpper_strUpper (s : String) : strUpper (strUpper s) = strUpper s := by
  unfold strUpper
  simp [List.map_map, Function.comp_def, charUpper_charUpper]

theorem strLower_strLower (s : String) : strLower (strLower s) = strLower s := by
  unfold strLower
  simp [List.map_map, Function.comp_def, charLower_charLower]

theorem startsDash_mk (l : List Char) :
    startsDash (String.mk l) = (match l with | [] => false | c :: _ => isDashChar c) := rfl

theorem startsDash_lstripDash (s : String) : startsDash (lstripDash s) = false := by
  unfold lstripDash
  rw [startsDash_mk]
  induction s.data with
  | nil => rfl
  | cons c t ih =>
    by_cases h : isDashChar c
    · simpa [List.dropWhile_cons, h] using ih
    · simp only [List.dropWhile_cons, h]
      simpa using h

theorem lstripDash_of_not_dash {s : String} (h : startsDash s = false) :
    lstripDash s = s := by
  obtain ⟨l⟩ := s
  unfold lstripDash
  rw [startsDash_mk] at h
  cases l with
  | nil => rfl
  | cons c t =>
    have hc : isDashChar c = false := by simpa using h
    simp [List.dropWhile_cons, hc]

theorem startsDash_dash_append (w : String) : startsDash ("-" ++ w) = true := rfl

theorem lstripDash_dash_append {w : String} (h : startsDash w = false) :
    lstripDash ("-" ++ w) = w := by
  obtain ⟨l⟩ := w
  rw [startsDash_mk] at h
  show String.mk (List.dropWhile isDashChar (['-'] ++ l)) = String.mk l
  cases l with
  | nil => rfl
  | cons c t =>
    have hc : isDashChar c = false := by simpa using h
    simp [List.dropWhile_cons, hc, show isDashChar '-' = true from rfl]

theorem empty_append_str (s : String) : "" ++ s = s := rfl

theorem strLower_lstripDash_strLower (s : String) :
    strLower (lstripDash (strLower s)) = lstripDash (strLower s) := by
  unfold strLower lstripDash
  simp only [List.dropWhile_map, List.map_map]
  congr 1
  apply List.map_congr_left
  intro c _
  exact charLower_charLower c

theorem pyInsert_of_not_mem {α : Type} {d : List (String × α)} {k : String}
    (v : α) (h : k ∉ d.map Prod.fst) : pyInsert d k v = d ++ [(k, v)] := by
  induction d with
  | nil => rfl
  | cons q rest ih =>
    simp only [List.map_cons, List.mem_cons, not_or] at h
    have hne : ¬ q.1 = k := fun hq => h.1 hq.symm
    simp only [pyInsert, if_neg hne, List.cons_append]
    rw [ih h.2]

theorem lookup_pyInsert {α : Type} (d : List (String × α)) (k a : String)
    (v : α) :
    List.lookup a (pyInsert d k v) =
      if a = k then some v else List.lookup a d := by
  induction d with
  | nil =>
    by_cases h : a = k
    · have hb : (a == k) = true := beq_iff_eq.mpr h
      simp [pyInsert, List.lookup_cons, hb, h]
    · have hb : (a == k) = false := beq_eq_false_iff_ne.mpr h
      simp [pyInsert, List.lookup_cons, hb, h]
  | cons q rest ih =>
    obtain ⟨qk, qv⟩ := q
    by_cases hqk : qk = k
    · by_cases hak : a = k
      · have hb : (a == k) = true := beq_iff_eq.mpr hak
        simp [pyInsert, hqk, List.lookup_cons, hb, hak]
      · have hb : (a == k) = false := beq_eq_false_iff_ne.mpr hak
        have hbq : (a == qk) = false :=
          beq_eq_false_iff_ne.mpr (by rw [hqk]; exact hak)
        simp [pyInsert, hqk, List.lookup_cons, hb, hbq, hak]
    · by_cases haq : a = qk
      · have hak : ¬ a = k := fun hc => hqk (haq ▸ hc)
        have hbq : (a == qk) = true := beq_iff_eq.mpr haq
        simp [pyInsert, hqk, List.lookup_cons, hbq, hak]
      · have hbq : (a == qk) = false := beq_eq_false_iff_ne.mpr haq
        simp [pyInsert, hqk, List.lookup_cons, hbq, ih]

theorem foldl_pyInsert_append {α : Type} (l : List (String × α)) :
    ∀ acc : List (String × α),
      ((acc ++ l).map Prod.fst).Nodup →
      l.foldl (fun d p => pyInsert d p.1 p.2) acc = acc ++ l := by
  induction l with
  | nil => intro acc _; simp
  | cons p rest ih =>
    intro acc hnd
    have hmem : p.1 ∉ acc.map Prod.fst := by
      intro hc
      rw [List.map_append] at hnd
      rcases (List.nodup_append.mp hnd) with ⟨_, _, hdisj⟩
      exact hdisj hc (by simp)
    have step : pyInsert acc p.1 p.2 = acc ++ [p] := pyInsert_of_not_mem p.2 hmem
    simp only [List.foldl_cons, step]
    have : ((acc ++ [p]) ++ rest).map Prod.fst = ((acc ++ p :: rest).map Prod.fst) := by
      simp
    rw [ih (acc ++ [p]) (by rw [this]; exact hnd)]
    simp

theorem pyDictOf_eq_self {α : Type} {l : List (String × α)}
    (h : (l.map Prod.fst).Nodup) : pyDictOf l = l := by
  have := foldl_pyInsert_append l [] (by simpa using h)
  simpa [pyDictOf] using this

theorem sanitize_eq_pyDictOf (m : List (String × String)) :
    sanitize_axis_map m = pyDictOf (m.map sanPair) := by
  unfold sanitize_axis_map pyDictOf
  rw [List.foldl_map]

theorem remap_eq_pyDictOf (v : List (String × ℤ)) (M : List (String × String)) :
    remap v M = pyDictOf (v.map (remapPair M)) := by
  unfold remap pyDictOf
  rw [List.foldl_map]

theorem sanitize_eq_map {m : List (String × String)}
    (h : (m.map sanKey).Nodup) : sanitize_axis_map m = m.map sanPair := by
  rw [sanitize_eq_pyDictOf]
  apply pyDictOf_eq_self
  have : (m.map sanPair).map Prod.fst = m.map sanKey := by
    rw [List.map_map]; rfl
  rw [this]; exact h

theorem remap_eq_map {v : List (String × ℤ)} {M : List (String × String)}
    (h : ((v.map (remapPair M)).map Prod.fst).Nodup) :
    remap v M = v.map (remapPair M) := by
  rw [remap_eq_pyDictOf]
  exact pyDictOf_eq_self h

theorem lookup_map_find {α β : Type} (f : α → String × β) (l : List α)
    (k : String) :
    List.lookup k (l.map f) =
      (l.find? (fun x => (f x).1 == k)).map (fun x => (f x).2) := by
  induction l with
  | nil => rfl
  | cons a t ih =>
    have heta : f a = ((f a).1, (f a).2) := rfl
    by_cases h : (f a).1 = k
    · have hb1 : (k == (f a).1) = true := beq_iff_eq.mpr h.symm
      have hb2 : ((f a).1 == k) = true := beq_iff_eq.mpr h
      rw [List.map_cons, heta, List.lookup_cons, List.find?_cons, hb1, hb2]
      rfl
    · have hb1 : (k == (f a).1) = false :=
        beq_eq_false_iff_ne.mpr (fun hc => h hc.symm)
      have hb2 : ((f a).1 == k) = false := beq_eq_false_iff_ne.mpr h
      rw [List.map_cons, heta, List.lookup_cons, List.find?_cons, hb1, hb2]
      exact ih

theorem lstripDash_sanPair_snd (p : String × String) :
    lstripDash ((sanPair p).2) = sanTarget p := by
  unfold sanPair signStr sanTarget
  by_cases h : (startsDash (strLower p.1)).xor (startsDash (strLower p.2))
  · rw [if_pos h]
    exact lstripDash_dash_append (startsDash_lstripDash (strLower p.2))
  · rw [if_neg h, empty_append_str]
    exact lstripDash_of_not_dash (startsDash_lstripDash (strLower p.2))

theorem startsDash_sanPair_snd (p : String × String) :
    startsDash ((sanPair p).2) =
      (startsDash (strLower p.1)).xor (startsDash (strLower p.2)) := by
  unfold sanPair signStr
  by_cases h : (startsDash (strLower p.1)).xor (startsDash (strLower p.2))
  · rw [if_pos h, startsDash_dash_append, h]
  · rw [if_neg h, empty_append_str, startsDash_lstripDash]
    simp only [Bool.not_eq_true] at h
    exact h.symm

theorem lookup_sanPair_mapped {m : List (String × String)} {a : String}
    (hin : a ∈ m.map sanKey) :
    ∃ q, m.find? (fun x => sanKey x == a) = some q ∧ q ∈ m ∧ sanKey q = a ∧
      List.lookup a (m.map sanPair) = some ((sanPair q).2) := by
  rcases List.mem_map.mp hin with ⟨x, hx, hxa⟩
  have hsome : (m.find? (fun x => sanKey x == a)).isSome := by
    rw [List.find?_isSome]
    exact ⟨x, hx, beq_iff_eq.mpr hxa⟩
  rcases Option.isSome_iff_exists.mp hsome with ⟨q, hq⟩
  have h1 := List.find?_some hq
  have hkey : sanKey q = a := beq_iff_eq.mp h1
  refine ⟨q, hq, List.mem_of_find?_eq_some hq, hkey, ?_⟩
  have hfind : m.find? (fun x => (sanPair x).1 == a) = some q := hq
  rw [lookup_map_find sanPair m a, hfind]
  rfl

theorem lookup_sanPair_unmapped {m : List (String × String)} {a : String}
    (hout : a ∉ m.map sanKey) :
    List.lookup a (m.map sanPair) = none := by
  rw [lookup_map_find sanPair m a]
  have : m.find? (fun x => (sanPair x).1 == a) = none := by
    rw [List.find?_eq_none]
    intro x hx hc
    exact hout (List.mem_map.mpr ⟨x, hx, beq_iff_eq.mp hc⟩)
  rw [this]
  rfl

theorem lookup_swapPair_mapped {m : List (String × String)} {a : String}
    (hnd : (m.map sanTarget).Nodup) {q : String × String} (hq : q ∈ m)
    (hqa : sanTarget q = a) :
    List.lookup a (m.map (fun x => sanPair (x.2, x.1))) =
      some ((sanPair (q.2, q.1)).2) := by
  rw [lookup_map_find (fun x => sanPair (x.2, x.1)) m a]
  have hsome : (m.find? (fun x => (sanPair (x.2, x.1)).1 == a)).isSome := by
    rw [List.find?_isSome]
    refine ⟨q, hq, ?_⟩
    show (sanKey (q.2, q.1) == a) = true
    exact beq_iff_eq.mpr hqa
  rcases Option.isSome_iff_exists.mp hsome with ⟨q1, hq1⟩
  have hq1m : q1 ∈ m := List.mem_of_find?_eq_some hq1
  have h1 := List.find?_some hq1
  have hq1a : sanTarget q1 = a := beq_iff_eq.mp h1
  have hq1q : q1 = q :=
    List.inj_on_of_nodup_map hnd hq1m hq (hq1a.trans hqa.symm)
  rw [hq1, hq1q]
  rfl

theorem lookup_swapPair_unmapped {m : List (String × String)} {a : String}
    (hout : a ∉ m.map sanTarget) :
    List.lookup a (m.map (fun x => sanPair (x.2, x.1))) = none := by
  rw [lookup_map_find (fun x => sanPair (x.2, x.1)) m a]
  have : m.find? (fun x => (sanPair (x.2, x.1)).1 == a) = none := by
    rw [List.find?_eq_none]
    intro x hx hc
    have : sanTarget x = a := beq_iff_eq.mp hc
    exact hout (List.mem_map.mpr ⟨x, hx, this⟩)
  rw [this]
  rfl

theorem remapPair_pass {M : List (String × String)} {p : String × ℤ}
    (hlook : List.lookup (strLower p.1) M = none)
    (hlow : strLower p.1 = p.1) (hnd : startsDash p.1 = false) :
    remapPair M p = p := by
  have hl2 : List.lookup p.1 M = none := by rw [← hlow]; exact hlook
  unfold remapPair
  rw [hlow]
  simp [hl2, hnd, lstripDash_of_not_dash hnd]

theorem remapPair_fwd {m : List (String × String)} {p : String × ℤ}
    {q : String × String}
    (hq : List.lookup (strLower p.1) (m.map sanPair) = some ((sanPair q).2)) :
    remapPair (m.map sanPair) p =
      (sanTarget q,
       (if (startsDash (strLower q.1)).xor (startsDash (strLower q.2))
        then (-1 : ℤ) else 1) * p.2) := by
  unfold remapPair
  rw [hq]
  simp only [Option.getD_some]
  simp only [lstripDash_sanPair_snd, startsDash_sanPair_snd]

theorem remapPair_mapped {M : List (String × String)} {p : String × ℤ}
    {w : String} (hlook : List.lookup (strLower p.1) M = some w) :
    remapPair M p =
      (lstripDash w, (if startsDash w then (-1 : ℤ) else 1) * p.2) := by
  unfold remapPair
  rw [hlook]
  rfl

theorem strLower_sanTarget (p : String × String) :
    strLower (sanTarget p) = sanTarget p :=
  strLower_lstripDash_strLower p.2

theorem roundtrip_pair {m : List (String × String)} {p : String × ℤ}
    (hm2 : (m.map sanTarget).Nodup)
    (hlow : strLower p.1 = p.1) (hdash : startsDash p.1 = false)
    (hmem : p.1 ∉ m.map sanKey → p.1 ∉ m.map sanTarget) :
    remapPair (m.map (fun x => sanPair (x.2, x.1)))
      (remapPair (m.map sanPair) p) = p := by
  by_cases hin : p.1 ∈ m.map sanKey
  · rcases lookup_sanPair_mapped hin with ⟨q, hfind, hqm, hqkey, hlook⟩
    have hlook1 : List.lookup (strLower p.1) (m.map sanPair) =
        some ((sanPair q).2) := by
      rw [hlow]; exact hlook
    rw [remapPair_mapped hlook1, lstripDash_sanPair_snd, startsDash_sanPair_snd]
    have hlook2 : List.lookup (strLower (sanTarget q))
        (m.map (fun x => sanPair (x.2, x.1))) = some ((sanPair (q.2, q.1)).2) := by
      rw [strLower_sanTarget q]
      exact lookup_swapPair_mapped hm2 hqm rfl
    rw [remapPair_mapped hlook2, lstripDash_sanPair_snd, startsDash_sanPair_snd]
    have hback : sanTarget (q.2, q.1) = p.1 := hqkey
    rw [hback]
    have hcomm : startsDash (strLower (q.2, q.1).1) =
        startsDash (strLower q.2) := rfl
    rw [hcomm]
    rw [Bool.xor_comm (startsDash (strLower q.2)) (startsDash (strLower (q.2, q.1).2))]
    have hsnd : strLower (q.2, q.1).2 = strLower q.1 := rfl
    rw [hsnd]
    rcases Bool.eq_false_or_eq_true
        ((startsDash (strLower q.1)).xor (startsDash (strLower q.2))) with h | h
    · simp [h]
    · simp [h]
  · have hout := hmem hin
    have hlookn : List.lookup (strLower p.1) (m.map sanPair) = none := by
      rw [hlow]; exact lookup_sanPair_unmapped hin
    rw [remapPair_pass hlookn hlow hdash]
    have hlookn2 : List.lookup (strLower p.1)
        (m.map (fun x => sanPair (x.2, x.1))) = none := by
      rw [hlow]; exact lookup_swapPair_unmapped hout
    exact remapPair_pass hlookn2 hlow hdash

theorem fwd_key_of_mapped {m : List (String × String)} {p : String × ℤ}
    (hlow : strLower p.1 = p.1) (hin : p.1 ∈ m.map sanKey) :
    ∃ q ∈ m, sanKey q = p.1 ∧
      (remapPair (m.map sanPair) p).1 = sanTarget q := by
  rcases lookup_sanPair_mapped hin with ⟨q, _, hqm, hqkey, hlook⟩
  have hlook1 : List.lookup (strLower p.1) (m.map sanPair) =
      some ((sanPair q).2) := by
    rw [hlow]; exact hlook
  refine ⟨q, hqm, hqkey, ?_⟩
  rw [remapPair_mapped hlook1, lstripDash_sanPair_snd]

theorem fwd_key_of_unmapped {m : List (String × String)} {p : String × ℤ}
    (hlow : strLower p.1 = p.1) (hdash : startsDash p.1 = false)
    (hout : p.1 ∉ m.map sanKey) :
    (remapPair (m.map sanPair) p).1 = p.1 := by
  have hlookn : List.lookup (strLower p.1) (m.map sanPair) = none := by
    rw [hlow]; exact lookup_sanPair_unmapped hout
  rw [remapPair_pass hlookn hlow hdash]

theorem fwd_keys_nodup {m : List (String × String)} {v : List (String × ℤ)}
    (hm2 : (m.map sanTarget).Nodup)
    (hv : ∀ p ∈ v, strLower p.1 = p.1 ∧ startsDash p.1 = false ∧
      (p.1 ∉ m.map sanKey → p.1 ∉ m.map sanTarget))
    (hvnd : (v.map Prod.fst).Nodup) :
    ((v.map (remapPair (m.map sanPair))).map Prod.fst).Nodup := by
  rw [List.map_map]
  apply List.Nodup.map_on ?_ (List.Nodup.of_map Prod.fst hvnd)
  intro p1 h1 p2 h2 heq
  have heq' : (remapPair (m.map sanPair) p1).1 =
      (remapPair (m.map sanPair) p2).1 := heq
  rcases hv p1 h1 with ⟨hl1, hd1, hc1⟩
  rcases hv p2 h2 with ⟨hl2, hd2, hc2⟩
  have hkey : p1.1 = p2.1 := by
    by_cases hin1 : p1.1 ∈ m.map sanKey
    · rcases fwd_key_of_mapped hl1 hin1 with ⟨q1, hq1m, hq1k, he1⟩
      by_cases hin2 : p2.1 ∈ m.map sanKey
      · rcases fwd_key_of_mapped hl2 hin2 with ⟨q2, hq2m, hq2k, he2⟩
        have hts : sanTarget q1 = sanTarget q2 := by
          rw [← he1, ← he2]; exact heq'
        have hq12 : q1 = q2 := List.inj_on_of_nodup_map hm2 hq1m hq2m hts
        rw [← hq1k, ← hq2k, hq12]
      · have he2 : (remapPair (m.map sanPair) p2).1 = p2.1 :=
          fwd_key_of_unmapped hl2 hd2 hin2
        exact absurd
          (List.mem_map.mpr ⟨q1, hq1m, he1.symm.trans (heq'.trans he2)⟩)
          (hc2 hin2)
    · have he1 : (remapPair (m.map sanPair) p1).1 = p1.1 :=
        fwd_key_of_unmapped hl1 hd1 hin1
      by_cases hin2 : p2.1 ∈ m.map sanKey
      · rcases fwd_key_of_mapped hl2 hin2 with ⟨q2, hq2m, hq2k, he2⟩
        exact absurd
          (List.mem_map.mpr ⟨q2, hq2m, he2.symm.trans (heq'.symm.trans he1)⟩)
          (hc1 hin1)
      · have he2 : (remapPair (m.map sanPair) p2).1 = p2.1 :=
          fwd_key_of_unmapped hl2 hd2 hin2
        rw [← he1, ← he2]; exact heq'
  exact List.inj_on_of_nodup_map hvnd h1 h2 hkey

theorem mkPose_fwd {m : List (String × String)}
    (hm1 : (m.map sanKey).Nodup) :
    (mkPose m).sample_to_tiger_axis_map = m.map sanPair :=
  sanitize_eq_map hm1

theorem nodup_snd_of_nodup_sanTarget {m : List (String × String)}
    (hm2 : (m.map sanTarget).Nodup) : (m.map Prod.snd).Nodup := by
  apply List.Nodup.of_map (fun s => lstripDash (strLower s))
  have h : (m.map Prod.snd).map (fun s => lstripDash (strLower s)) =
      m.map sanTarget := by
    rw [List.map_map]; rfl
  rw [h]
  exact hm2

theorem mkPose_bwd {m : List (String × String)}
    (hm2 : (m.map sanTarget).Nodup) :
    (mkPose m).tiger_to_sample_axis_map =
      m.map (fun x => sanPair (x.2, x.1)) := by
  show sanitize_axis_map (pyDictOf (m.map (fun p => (p.2, p.1)))) = _
  have h1 : pyDictOf (m.map (fun p => (p.2, p.1))) =
      m.map (fun p => (p.2, p.1)) := by
    apply pyDictOf_eq_self
    have h : (m.map (fun p => (p.2, p.1))).map Prod.fst = m.map Prod.snd := by
      rw [List.map_map]; rfl
    rw [h]
    exact nodup_snd_of_nodup_sanTarget hm2
  rw [h1]
  have h2 : (m.map (fun p => (p.2, p.1))).map sanKey = m.map sanTarget := by
    rw [List.map_map]; rfl
  rw [sanitize_eq_map (by rw [h2]; exact hm2)]
  rw [List.map_map]
  exact List.map_congr_left (fun x _ => rfl)

/-- Claim C1 (amended): for an axis map whose sanitized logical names are
pairwise distinct and whose sanitized machine names are pairwise distinct
(the bijectivity the code assumes), and a position vector with distinct,
lowercase, dash-free axis names, each of which is either a mapped logical
axis or names no machine target, applying the Forward remap
(`_sample_to_tiger`) and then the Backward remap (`_tiger_to_sample`) built
from that same axis map returns the vector unchanged, including on axes
mapped with a sign flip.  (As stated over every vector the claim fails: a
pass-through axis that collides with a machine target breaks the round
trip, see the counterexample.) -/
theorem c1_round_trip (m : List (String × String)) (v : List (String × ℤ))
    (hm1 : (m.map sanKey).Nodup) (hm2 : (m.map sanTarget).Nodup)
    (hv : ∀ p ∈ v, strLower p.1 = p.1 ∧ startsDash p.1 = false ∧
      (p.1 ∉ m.map sanKey → p.1 ∉ m.map sanTarget))
    (hvnd : (v.map Prod.fst).Nodup) :
    tiger_to_sample (mkPose m) (sample_to_tiger (mkPose m) v) = v := by
  unfold tiger_to_sample sample_to_tiger
  rw [mkPose_fwd hm1, mkPose_bwd hm2]
  rw [remap_eq_map (fwd_keys_nodup hm2 hv hvnd)]
  have hpt : ∀ p ∈ v,
      remapPair (m.map (fun x => sanPair (x.2, x.1)))
        (remapPair (m.map sanPair) p) = p := by
    intro p hp
    rcases hv p hp with ⟨hl, hd, hc⟩
    exact roundtrip_pair hm2 hl hd hc
  have hkeys2 : (((v.map (remapPair (m.map sanPair))).map
      (remapPair (m.map (fun x => sanPair (x.2, x.1))))).map Prod.fst).Nodup := by
    rw [List.map_map, List.map_map]
    have h : v.map ((Prod.fst ∘ remapPair (m.map (fun x => sanPair (x.2, x.1)))) ∘
        remapPair (m.map sanPair)) = v.map Prod.fst := by
      apply List.map_congr_left
      intro p hp
      show (remapPair _ (remapPair _ p)).1 = p.1
      rw [hpt p hp]
    rw [h]
    exact hvnd
  rw [remap_eq_map hkeys2]
  rw [List.map_map]
  have h : v.map (remapPair (m.map (fun x => sanPair (x.2, x.1))) ∘
      remapPair (m.map sanPair)) = v.map id := by
    apply List.map_congr_left
    intro p hp
    exact hpt p hp
  rw [h, List.map_id]

theorem c1_round_trip_witness :
    ((([("x", "-z"), ("y", "y")] : List (String × String)).map sanKey).Nodup ∧
     (([("x", "-z"), ("y", "y")] : List (String × String)).map sanTarget).Nodup ∧
     (∀ p ∈ ([("x", 10), ("y", 7), ("q", 3)] : List (String × ℤ)),
       strLower p.1 = p.1 ∧ startsDash p.1 = false ∧
       (p.1 ∉ ([("x", "-z"), ("y", "y")] : List (String × String)).map sanKey →
        p.1 ∉ ([("x", "-z"), ("y", "y")] : List (String × String)).map sanTarget)) ∧
     (([("x", 10), ("y", 7), ("q", 3)] : List (String × ℤ)).map Prod.fst).Nodup) ∧
    tiger_to_sample (mkPose [("x", "-z"), ("y", "y")])
      (sample_to_tiger (mkPose [("x", "-z"), ("y", "y")])
        [("x", 10), ("y", 7), ("q", 3)]) = [("x", 10), ("y", 7), ("q", 3)] :=
  ⟨⟨by decide, by decide, by decide, by decide⟩,
   c1_round_trip [("x", "-z"), ("y", "y")] [("x", 10), ("y", 7), ("q", 3)]
     (by decide) (by decide) (by decide) (by decide)⟩

/-- Claim C1 counterexample: with the bijective axis map `{x: z}` and the
position vector `{z: 5}` (the axis `z` is unmapped but collides with the
machine target of `x`), `Backward(Forward(v))` differs from `v` on axis
`z`: the Forward remap passes `z` through, and the Backward remap then
renames it to `x`, so the round trip loses the `z` entry. -/
theorem c1_round_trip_cex :
    List.lookup "z"
      (tiger_to_sample (mkPose [("x", "z")])
        (sample_to_tiger (mkPose [("x", "z")]) [("z", (5 : ℤ))])) ≠
      List.lookup "z" [("z", (5 : ℤ))] := by
  decide

/-- Claim C2 (confirmed): when building the axis map, the sanitized value for
an axis pair carries a leading `-` exactly when the logical name starts with
`-` XOR the machine name starts with `-`; in particular the map entry
`{"-x": "-y"}` produces a net positive mapping, so `Forward({x: 5}) == {y: 5}`. -/
theorem c2_sign_xor :
    (∀ k t : String, ∃ w,
      sanitize_axis_map [(k, t)] = [(lstripDash (strLower k), w)] ∧
      startsDash w = (startsDash (strLower k)).xor (startsDash (strLower t))) ∧
    sample_to_tiger (mkPose [("-x", "-y")]) [("x", (5 : ℤ))] = [("y", 5)] := by
  constructor
  · intro k t
    refine ⟨(sanPair (k, t)).2, rfl, ?_⟩
    exact startsDash_sanPair_snd (k, t)
  · decide

theorem mem_pyInsert {α : Type} {d : List (String × α)} {k : String}
    {v : α} {p : String × α} (h : p ∈ pyInsert d k v) :
    p = (k, v) ∨ p ∈ d := by
  induction d with
  | nil => simpa [pyInsert] using h
  | cons q rest ih =>
    by_cases hqk : q.1 = k
    · rw [pyInsert, if_pos hqk] at h
      rcases List.mem_cons.mp h with h1 | h1
      · exact Or.inl h1
      · exact Or.inr (List.mem_cons_of_mem q h1)
    · rw [pyInsert, if_neg hqk] at h
      rcases List.mem_cons.mp h with h1 | h1
      · exact Or.inr (h1 ▸ List.mem_cons_self q rest)
      · rcases ih h1 with h2 | h2
        · exact Or.inl h2
        · exact Or.inr (List.mem_cons_of_mem q h2)

theorem travel_values {P : Pose} {tb : TigerLimits} (l : List String) :
    ∀ acc : List (String × List ℤ),
      (∀ p ∈ acc, p.2 = travel_pair P tb p.1) →
      ∀ p ∈ l.foldl (fun acc ax => pyInsert acc ax (travel_pair P tb ax)) acc,
        p.2 = travel_pair P tb p.1 := by
  induction l with
  | nil => intro acc hacc p hp; exact hacc p hp
  | cons ax rest ih =>
    intro acc hacc p hp
    rw [List.foldl_cons] at hp
    refine ih _ ?_ p hp
    intro q hq
    rcases mem_pyInsert hq with hq1 | hq2
    · rw [hq1]
    · exact hacc q hq2

/-- Claim C3 (confirmed): for every requested logical axis,
`get_travel_limits` resolves it to its single machine axis, queries the
machine lower and upper limits, remaps each limit value Backward into the
sample frame, and returns the pair sorted in ascending order (min first,
max second); in the spec's example, machine limits `(-50, 50)` on an axis
mapped with a negative sign come back as `(min = -50, max = 50)`. -/
theorem c3_travel_limits_sorted :
    (∀ (P : Pose) (tb : TigerLimits) (axes : List String),
      ∀ p ∈ get_travel_limits P tb axes,
      ∃ lo hi, p.2 = [lo, hi] ∧ lo ≤ hi ∧
        ((lo = ((tiger_to_sample P
              [((sample_to_tiger_axis_list P [p.1]).headD "",
                tb.lower ((sample_to_tiger_axis_list P [p.1]).headD ""))]).map
              Prod.snd).headD 0 ∧
          hi = ((tiger_to_sample P
              [((sample_to_tiger_axis_list P [p.1]).headD "",
                tb.upper ((sample_to_tiger_axis_list P [p.1]).headD ""))]).map
              Prod.snd).headD 0) ∨
         (lo = ((tiger_to_sample P
              [((sample_to_tiger_axis_list P [p.1]).headD "",
                tb.upper ((sample_to_tiger_axis_list P [p.1]).headD ""))]).map
              Prod.snd).headD 0 ∧
          hi = ((tiger_to_sample P
              [((sample_to_tiger_axis_list P [p.1]).headD "",
                tb.lower ((sample_to_tiger_axis_list P [p.1]).headD ""))]).map
              Prod.snd).headD 0))) ∧
    get_travel_limits (mkPose [("x", "-z")])
      (TigerLimits.mk (fun _ => -50) (fun _ => 50)) ["x"] =
      [("x", [-50, 50])] := by
  constructor
  · intro P tb axes p hp
    have hval : p.2 = travel_pair P tb p.1 := by
      refine travel_values axes [] ?_ p hp
      intro q hq
      cases hq
    rw [travel_pair] at hval
    by_cases hle :
        (((tiger_to_sample P
            [((sample_to_tiger_axis_list P [p.1]).headD "",
              tb.lower ((sample_to_tiger_axis_list P [p.1]).headD ""))]).map
            Prod.snd).headD 0 : ℤ) ≤
        ((tiger_to_sample P
            [((sample_to_tiger_axis_list P [p.1]).headD "",
              tb.upper ((sample_to_tiger_axis_list P [p.1]).headD ""))]).map
            Prod.snd).headD 0
    · rw [sorted2, if_pos hle] at hval
      exact ⟨_, _, hval, hle, Or.inl ⟨rfl, rfl⟩⟩
    · rw [sorted2, if_neg hle] at hval
      exact ⟨_, _, hval, le_of_not_le hle, Or.inr ⟨rfl, rfl⟩⟩
  · decide

/-- Claim C4 counterexample: the axis name `-q` is absent from the mapping,
yet the Forward remap does not return it under its own (lower-cased) name
with its value unchanged: `Forward({-q: 3}) == {q: -3}` — the leading dash
is stripped off the key and folded into the sign of the value. -/
theorem c4_passthrough_cex :
    sample_to_tiger (mkPose [("x", "y")]) [("-q", (3 : ℤ))] = [("q", -3)] ∧
    List.lookup "-q"
      (sample_to_tiger (mkPose [("x", "y")]) [("-q", (3 : ℤ))]) = none := by
  exact ⟨by decide, by decide⟩

/-- Claim C4 (amended): for every axis name not present in the selected
mapping whose lowercase form does not begin with `-`, the Remap operation
returns that axis under its own (lower-cased) name with its value unchanged
(sign `+1`), e.g. `Forward({q: 3}) == {q: 3}` when `q` is unmapped; an
unmapped name with a leading `-` is instead stripped and its value negated
(see the counterexample). -/
theorem c4_passthrough (mapping : List (String × String)) (a : String)
    (val : ℤ)
    (hlook : List.lookup (strLower a) mapping = none)
    (hdash : startsDash (strLower a) = false) :
    remap [(a, val)] mapping = [(strLower a, val)] := by
  have h1 : remap [(a, val)] mapping = [remapPair mapping (a, val)] := rfl
  rw [h1]
  have key : remapPair mapping (a, val) = (strLower a, val) := by
    show (lstripDash ((List.lookup (strLower a) mapping).getD (strLower a)),
      (if startsDash ((List.lookup (strLower a) mapping).getD (strLower a))
       then (-1 : ℤ) else 1) * val) = (strLower a, val)
    rw [hlook]
    simp only [Option.getD_none]
    rw [lstripDash_of_not_dash hdash]
    simp [hdash]
  rw [key]

theorem c4_passthrough_witness :
    (List.lookup (strLower "q") ([("x", "y")] : List (String × String)) = none ∧
     startsDash (strLower "q") = false) ∧
    remap [("q", (3 : ℤ))] [("x", "y")] = [(strLower "q", 3)] :=
  ⟨⟨by decide, by decide⟩, c4_passthrough [("x", "y")] "q" 3 (by decide) (by decide)⟩

theorem sanPair_clean {k t : String} (hk : strLower k = k)
    (ht : strLower t = t) (hdk : startsDash k = false)
    (hdt : startsDash t = false) : sanPair (k, t) = (k, t) := by
  show (lstripDash (strLower k),
    signStr (strLower k) (strLower t) ++ lstripDash (strLower t)) = (k, t)
  unfold signStr
  rw [hk, ht, lstripDash_of_not_dash hdk, lstripDash_of_not_dash hdt, hdk, hdt]
  simp [empty_append_str]

/-- Claim C5 counterexample: constructing the axis mapper from the
non-bijective map `{x: z, y: z}` raises nothing (the constructor is total
and no `ConfigurationError` exists anywhere in the code base); the forward
map keeps both entries, and the derived reverse map silently overwrites
the earlier entry, keeping only `{z: y}`. -/
theorem c5_bijective_cex :
    (mkPose [("x", "z"), ("y", "z")]).sample_to_tiger_axis_map =
      [("x", "z"), ("y", "z")] ∧
    (mkPose [("x", "z"), ("y", "z")]).tiger_to_sample_axis_map =
      [("z", "y")] := by
  exact ⟨by decide, by decide⟩

/-- Claim C5 (amended): construction of the axis mapper performs no
bijectivity validation and cannot fail: for any two distinct (normalized)
logical axes `a ≠ b` mapped to the same machine target `t`, `Pose.__init__`
succeeds, keeps both entries in the forward map, and silently overwrites
the earlier entry in the derived reverse map, which ends up as `{t: b}`. -/
theorem c5_silent_overwrite (a b t : String)
    (ha : strLower a = a) (hb : strLower b = b) (ht : strLower t = t)
    (hda : startsDash a = false) (hdb : startsDash b = false)
    (hdt : startsDash t = false) (hab : a ≠ b) :
    (mkPose [(a, t), (b, t)]).sample_to_tiger_axis_map = [(a, t), (b, t)] ∧
    (mkPose [(a, t), (b, t)]).tiger_to_sample_axis_map = [(t, b)] := by
  constructor
  · show sanitize_axis_map [(a, t), (b, t)] = [(a, t), (b, t)]
    have h1 : sanitize_axis_map [(a, t), (b, t)] =
        pyInsert (pyInsert [] (sanPair (a, t)).1 (sanPair (a, t)).2)
          (sanPair (b, t)).1 (sanPair (b, t)).2 := rfl
    rw [h1, sanPair_clean ha ht hda hdt, sanPair_clean hb ht hdb hdt]
    simp [pyInsert, hab]
  · show sanitize_axis_map
        (pyDictOf ([(a, t), (b, t)].map (fun p => (p.2, p.1)))) = [(t, b)]
    have h1 : pyDictOf ([(a, t), (b, t)].map (fun p => (p.2, p.1))) =
        pyInsert (pyInsert [] t a) t b := rfl
    have h2 : pyInsert (pyInsert ([] : List (String × String)) t a) t b =
        [(t, b)] := by
      simp [pyInsert]
    have h3 : sanitize_axis_map [(t, b)] =
        [((sanPair (t, b)).1, (sanPair (t, b)).2)] := rfl
    rw [h1, h2, h3, sanPair_clean ht hb hdt hdb]

theorem c5_silent_overwrite_witness :
    (strLower "x" = "x" ∧ strLower "y" = "y" ∧ strLower "z" = "z" ∧
     startsDash "x" = false ∧ startsDash "y" = false ∧
     startsDash "z" = false ∧ ("x" : String) ≠ "y") ∧
    ((mkPose [("x", "z"), ("y", "z")]).sample_to_tiger_axis_map =
      [("x", "z"), ("y", "z")] ∧
     (mkPose [("x", "z"), ("y", "z")]).tiger_to_sample_axis_map =
      [("z", "y")]) :=
  ⟨⟨by decide, by decide, by decide, by decide, by decide, by decide, by decide⟩,
   c5_silent_overwrite "x" "y" "z" (by decide) (by decide) (by decide)
     (by decide) (by decide) (by decide) (by decide)⟩

/-- Claim C6 counterexample: the axis `q` is absent from the axis map of
`Pose({x: -z})` and is not one of its machine axes, yet a move referencing
it raises nothing: `_remap` silently passes it through unchanged to the
controller (`Forward({q: 3}) == {q: 3}`); no `UnknownAxisError` exists
anywhere in the code base. -/
theorem c6_unknown_axis_cex :
    sample_to_tiger (mkPose [("x", "-z")]) [("q", (3 : ℤ))] = [("q", 3)] := by
  decide

/-- Claim C6 (amended): a move or query that references an axis name absent
from the axis map raises no error at this layer: `_remap` silently passes
the axis through to the hardware under its own lowercased, dash-stripped
name, with a leading dash folded into the sign of the value. -/
theorem c6_unknown_axis_passthrough (P : Pose) (a : String) (val : ℤ)
    (hlook : List.lookup (strLower a) P.sample_to_tiger_axis_map = none) :
    sample_to_tiger P [(a, val)] =
      [(lstripDash (strLower a),
        (if startsDash (strLower a) then (-1 : ℤ) else 1) * val)] := by
  have h1 : sample_to_tiger P [(a, val)] =
      [remapPair P.sample_to_tiger_axis_map (a, val)] := rfl
  rw [h1]
  show [(lstripDash ((List.lookup (strLower a)
      P.sample_to_tiger_axis_map).getD (strLower a)),
    (if startsDash ((List.lookup (strLower a)
        P.sample_to_tiger_axis_map).getD (strLower a))
     then (-1 : ℤ) else 1) * val)] = _
  rw [hlook]
  simp only [Option.getD_none]

theorem c6_unknown_axis_passthrough_witness :
    (List.lookup (strLower "q")
      (mkPose [("x", "-z")]).sample_to_tiger_axis_map = none) ∧
    sample_to_tiger (mkPose [("x", "-z")]) [("q", (3 : ℤ))] =
      [(lstripDash (strLower "q"),
        (if startsDash (strLower "q") then (-1 : ℤ) else 1) * 3)] :=
  ⟨by decide, c6_unknown_axis_passthrough (mkPose [("x", "-z")]) "q" 3 (by decide)⟩

/-- Claim C7 counterexample: `setup_finite_tile_scan` called with
`tile_count = 0` does not fail fast and does not withhold configuration
commands: it programs the controller with all three scan commands, passing
the degenerate `num_pixels = 0` straight to `scanr`.  (The same holds for
`tile_interval_um <= 0`; no precondition is checked anywhere in the body.) -/
theorem c7_scan_no_validation_cex :
    setup_finite_tile_scan (mkPose [("x", "y"), ("z", "z")]) "x" "z"
      2 3 4 0 (-1) 1 =
      Except.ok [TigerCmd.setupScan "y" "z", TigerCmd.scanr 2 (-1) 0 100,
        TigerCmd.scanv 3 4 1] := by
  rfl

/-- Claim C7 (amended): `setup_finite_tile_scan` validates none of
`tile_count`, `tile_interval_um` or `line_count`: whenever both scan axes
resolve in the forward axis map, it issues exactly the three configuration
commands `setup_scan`, `scanr`, `scanv` carrying the given (remapped)
positions and the given counts and interval — including degenerate values
such as `tile_count = 0` or `tile_interval_um <= 0`.  The only failure mode
is a `KeyError` on an axis missing from the map. -/
theorem c7_scan_setup (P : Pose) (fast slow : String)
    (fsp ssp stp tc ti lc : ℤ) {fa sa : String}
    (hf : List.lookup (strLower fast) P.sample_to_tiger_axis_map = some fa)
    (hs : List.lookup (strLower slow) P.sample_to_tiger_axis_map = some sa) :
    setup_finite_tile_scan P fast slow fsp ssp stp tc ti lc =
      Except.ok
        [TigerCmd.setupScan (lstripDash fa) (lstripDash sa),
         TigerCmd.scanr
           (((sample_to_tiger P [(fast, fsp)]).map Prod.snd).headD 0)
           ti tc 100,
         TigerCmd.scanv
           (((sample_to_tiger P [(slow, ssp)]).map Prod.snd).headD 0)
           (((sample_to_tiger P [(slow, stp)]).map Prod.snd).headD 0)
           lc] := by
  unfold setup_finite_tile_scan
  rw [hf, hs]

theorem c7_scan_setup_witness :
    (List.lookup (strLower "x")
       (mkPose [("x", "y"), ("z", "z")]).sample_to_tiger_axis_map =
       some "y" ∧
     List.lookup (strLower "z")
       (mkPose [("x", "y"), ("z", "z")]).sample_to_tiger_axis_map =
       some "z") ∧
    setup_finite_tile_scan (mkPose [("x", "y"), ("z", "z")]) "x" "z"
      2 3 4 0 1 1 =
      Except.ok
        [TigerCmd.setupScan (lstripDash "y") (lstripDash "z"),
         TigerCmd.scanr
           (((sample_to_tiger (mkPose [("x", "y"), ("z", "z")])
               [("x", 2)]).map Prod.snd).headD 0) 1 0 100,
         TigerCmd.scanv
           (((sample_to_tiger (mkPose [("x", "y"), ("z", "z")])
               [("z", 3)]).map Prod.snd).headD 0)
           (((sample_to_tiger (mkPose [("x", "y"), ("z", "z")])
               [("z", 4)]).map Prod.snd).headD 0) 1] :=
  ⟨⟨by decide, by decide⟩,
   c7_scan_setup (mkPose [("x", "y"), ("z", "z")]) "x" "z" 2 3 4 0 1 1
     (by decide) (by decide)⟩

/-- Claim C8 (confirmed): `_setup_relative_ring_buffer_move` is idempotent
per axis: calling it twice on the same axis with different step sizes
resets the queued ring buffer first, so the resulting controller state is
exactly the state produced by the second call alone — only the second step
size remains queued and the first queued move has no effect. -/
theorem c8_ring_buffer_idempotent (P : Pose) (s : RingState) (axis : String)
    (step1 step2 : ℤ) :
    setup_relative_ring_buffer_move P
      (setup_relative_ring_buffer_move P s axis step1) axis step2 =
      setup_relative_ring_buffer_move P s axis step2 := by
  unfold setup_relative_ring_buffer_move queue_buffered_move reset_ring_buffer
  have hsingle : ∀ v : ℤ, sample_to_tiger P [(strLower axis, v)] =
      [remapPair P.sample_to_tiger_axis_map (strLower axis, v)] := fun v => rfl
  simp only [hsingle, List.foldl_cons, List.foldl_nil, List.map_cons,
    List.map_nil, List.headD_cons]
  congr 1
  funext a
  have hkey : (remapPair P.sample_to_tiger_axis_map
      (strLower axis, step2 * 1000 * STEPS_PER_UM)).1 =
      (remapPair P.sample_to_tiger_axis_map
        (strLower axis, step1 * 1000 * STEPS_PER_UM)).1 := rfl
  rw [hkey]
  simp only [strUpper_strUpper]
  by_cases h : strUpper a =
      strUpper ((remapPair P.sample_to_tiger_axis_map
        (strLower axis, step1 * 1000 * STEPS_PER_UM)).1)
  · simp [h]
  · simp [h]

/-- Claim C9 (confirmed): for every operation wrapped by the
`lock_external_user_input` guard, the joystick is locked (disabled) before
the body runs, and on every exit path — normal return or raised error —
the guard unlocks afterwards and re-binds the joystick axis mapping that
was captured at lock time (the pre-call binding), not the hardware default
`deflt` restored by `enable_joystick_inputs`; the body's error, if any, is
propagated unmodified.  The only assumption is that the body does not
itself overwrite the wrapper's `tiger_joystick_mapping` snapshot. -/
theorem c9_locked_guard (deflt : List (String × String))
    (body : JoySys → JoySys × Option String) (st : JoySys)
    (hpres : (body (lock_external_user_input st)).1.tiger_joystick_mapping =
      (lock_external_user_input st).tiger_joystick_mapping) :
    (lock_external_user_input st).joyEnabled = false ∧
    (locked_guard deflt body st).2 = (body (lock_external_user_input st)).2 ∧
    (locked_guard deflt body st).1.joyBinding =
      get_joystick_axis_mapping st ∧
    (locked_guard deflt body st).1.joyEnabled = true := by
  refine ⟨rfl, rfl, ?_, rfl⟩
  have h1 : (locked_guard deflt body st).1.joyBinding =
      (body (lock_external_user_input st)).1.tiger_joystick_mapping := rfl
  rw [h1, hpres]
  rfl

theorem c9_locked_guard_witness :
    (((fun s => (s, some "ioerr")) :
        JoySys → JoySys × Option String)
          (lock_external_user_input (JoySys.mk true [("j", "x")] []))).1.tiger_joystick_mapping =
      (lock_external_user_input
        (JoySys.mk true [("j", "x")] [])).tiger_joystick_mapping ∧
    ((lock_external_user_input (JoySys.mk true [("j", "x")] [])).joyEnabled = false ∧
     (locked_guard [("j", "default")]
        (fun s => (s, some "ioerr")) (JoySys.mk true [("j", "x")] [])).2 =
       ((fun s => (s, some "ioerr")) (lock_external_user_input (JoySys.mk true [("j", "x")] []))).2 ∧
     (locked_guard [("j", "default")]
        (fun s => (s, some "ioerr")) (JoySys.mk true [("j", "x")] [])).1.joyBinding =
       get_joystick_axis_mapping (JoySys.mk true [("j", "x")] []) ∧
     (locked_guard [("j", "default")]
        (fun s => (s, some "ioerr")) (JoySys.mk true [("j", "x")] [])).1.joyEnabled = true) :=
  ⟨by decide,
   c9_locked_guard [("j", "default")] (fun s => (s, some "ioerr"))
     (JoySys.mk true [("j", "x")] []) (by decide)⟩

theorem lookup_select_fold_none {P : Pose} {a : String}
    (l : List (String × Option ℤ))
    (hl : ∀ p ∈ l, p.1 ≠ a ∨
      List.lookup (strLower p.1) P.sample_to_tiger_axis_map = none) :
    ∀ acc, List.lookup a acc = none →
      List.lookup a
        (l.foldl
          (fun acc p =>
            match p.2 with
            | some v =>
              if (List.lookup (strLower p.1)
                  P.sample_to_tiger_axis_map).isSome then
                pyInsert acc p.1 v
              else acc
            | none => acc)
          acc) = none := by
  induction l with
  | nil => intro acc hacc; exact hacc
  | cons p rest ih =>
    intro acc hacc
    rw [List.foldl_cons]
    apply ih (fun q hq => hl q (List.mem_cons_of_mem p hq))
    rcases p with ⟨pk, pv⟩
    cases pv with
    | none => exact hacc
    | some v =>
      rcases hl (pk, some v) (List.mem_cons_self _ _) with hne | hnone
      · by_cases hcond :
            (List.lookup (strLower pk) P.sample_to_tiger_axis_map).isSome
        · simp only [hcond, if_true, lookup_pyInsert]
          rw [if_neg (fun hc => hne hc.symm)]
          exact hacc
        · simpa [hcond] using hacc
      · simpa [hnone] using hacc

/-- Claim C10 (confirmed): `SamplePose.move_absolute` and
`SamplePose.move_relative` silently drop any of the `x`, `y`, `z` arguments
whose name is not a key of the sample-to-tiger axis map, even when a
non-`None` value is supplied: the dropped axis never appears among the
selected logical axes, so no command for it reaches the controller, and no
error is raised (both operations are total).  In particular, for a
`SamplePose` built with `axis_map = None`, both methods command no axis at
all. -/
theorem c10_sample_pose_drops (P : Pose) (x y z : Option ℤ) (a : String)
    (_ha : a ∈ (["x", "y", "z"] : List String))
    (hlook : List.lookup (strLower a) P.sample_to_tiger_axis_map = none) :
    List.lookup a (samplePose_select_axes P x y z) = none ∧
    samplePose_move_absolute mkPoseNoMap x y z = [] ∧
    samplePose_move_relative mkPoseNoMap x y z = [] := by
  refine ⟨?_, ?_, ?_⟩
  · unfold samplePose_select_axes
    have hz : List.zip (["x", "y", "z"] : List String) [x, y, z] =
        [("x", x), ("y", y), ("z", z)] := rfl
    rw [hz]
    apply lookup_select_fold_none [("x", x), ("y", y), ("z", z)] ?_ [] rfl
    intro p _
    by_cases hpa : p.1 = a
    · exact Or.inr (by rw [hpa]; exact hlook)
    · exact Or.inl hpa
  · cases x <;> cases y <;> cases z <;> rfl
  · cases x <;> cases y <;> cases z <;> rfl

theorem c10_sample_pose_drops_witness :
    (("z" : String) ∈ (["x", "y", "z"] : List String) ∧
     List.lookup (strLower "z")
       (mkPose [("x", "y")]).sample_to_tiger_axis_map = none) ∧
    (List.lookup "z"
       (samplePose_select_axes (mkPose [("x", "y")])
         (some 1) (some 2) (some 3)) = none ∧
     samplePose_move_absolute mkPoseNoMap (some 1) (some 2) (some 3) = [] ∧
     samplePose_move_relative mkPoseNoMap (some 1) (some 2) (some 3) = []) :=
  ⟨⟨by decide, by decide⟩,
   c10_sample_pose_drops (mkPose [("x", "y")]) (some 1) (some 2) (some 3) "z"
     (by decide) (by decide)⟩
